import Mathlib

/-!
Shallow embedding of the xbtracer interception/tracing core of the XRT
repository (src/runtime_src/core/tools/xbtracer/src/lib/{logger.h,
capture.cpp, xrt_device_inst.cpp} and the hw_context shim file), together
with theorems settling the frozen claims about it.

Strings are modelled as `List Char` where character-level operations
matter (search/replace, formatting) and as `String` where only equality
and concatenation matter (symbol names, map keys).  Bytes are modelled as
`Nat` values below 256.  The Linux (`__linux__`) build of the code is the
one embedded; platform-conditional orderings are noted where they occur.
-/

namespace XbTracer

/-! ### Decimal and hexadecimal formatting

Models `std::ostringstream <<` of integers (decimal) and
`std::hex <<` (lowercase hexadecimal).  The auxiliary functions take an
explicit fuel argument; fuel `n` is always sufficient for value `n`
because the value strictly decreases under division by the base. -/

def decChar (d : Nat) : Char := Char.ofNat (48 + d)

def decDigitsAux : Nat → Nat → List Char
  | _, 0 => []
  | 0, _ => []
  | fuel+1, n+1 => decDigitsAux fuel ((n+1) / 10) ++ [decChar ((n+1) % 10)]

/-- Decimal rendering of a natural number, as `operator<<(std::ostream&, integer)`
produces it. -/
def decStr (n : Nat) : List Char := if n = 0 then ['0'] else decDigitsAux n n

def hexChar (d : Nat) : Char := Char.ofNat (if d < 10 then 48 + d else 87 + d)

def hexDigitsAux : Nat → Nat → List Char
  | _, 0 => []
  | 0, _ => []
  | fuel+1, n+1 => hexDigitsAux fuel ((n+1) / 16) ++ [hexChar ((n+1) % 16)]

/-- Lowercase hexadecimal rendering, as `std::hex << n` produces it
(no `0x` prefix; `0` prints as `"0"`). -/
def hexStr (n : Nat) : List Char := if n = 0 then ['0'] else hexDigitsAux n n

/-- `std::setfill('0') << std::setw(9) << n`: pad the rendered digits on
the left with `'0'` up to width 9 (longer strings pass unchanged). -/
def pad9c (l : List Char) : List Char := List.replicate (9 - l.length) '0' ++ l

/-! ### `find_and_replace_all` (xrt_device_inst.cpp)

The source loop is

```
std::string::size_type pos = 0;
while ((pos = str.find(pair.first, pos)) != std::string::npos)
{
  str.replace(pos, pair.first.length(), pair.second);
  pos += pair.second.length();
}
```

`strFind a s pos` models `s.find(a, pos)`, `farLoop` models one pass of
the while loop with an explicit fuel, and `find_and_replace_all` folds
the passes over the replacement list.  A fuel of `s.length + 1` is proved
sufficient whenever the search string is non-empty (theorem
`farLoop_isSome_of_ne_nil`), because after each substitution the scan
position advances past the inserted replacement, so the count of
not-yet-scanned characters `s.length - pos` strictly decreases. -/

def isPrefOf : List Char → List Char → Bool
  | [], _ => true
  | _ :: _, [] => false
  | a :: as, b :: bs => a == b && isPrefOf as bs

/-- Index of the first occurrence of `a` inside `s` (the whole of `a`
must fit), as `std::string::find` computes it from position 0. -/
def findIn (a : List Char) : List Char → Option Nat
  | [] => if isPrefOf a [] then some 0 else none
  | c :: rest =>
    if isPrefOf a (c :: rest) then some 0
    else (findIn a rest).map (· + 1)

/-- `s.find(a, pos)`: first occurrence of `a` in `s` starting at or after
`pos`; `none` models `std::string::npos`. -/
def strFind (a s : List Char) (pos : Nat) : Option Nat :=
  if pos ≤ s.length then (findIn a (s.drop pos)).map (· + pos) else none

/-- One pass of the `find_and_replace_all` while loop for the pair
`(a, b)`.  `s.replace(p, a.length, b)` is `s.take p ++ b ++ s.drop (p +
a.length)`, and the scan position becomes `p + b.length`.  Fuel `0`
returning `none` marks exhaustion (which `farLoop_isSome_of_ne_nil`
rules out for non-empty `a` at fuel `s.length + 1`). -/
def farLoop (a b : List Char) : Nat → List Char → Nat → Option (List Char)
  | 0, _, _ => none
  | fuel+1, s, pos =>
    match strFind a s pos with
    | none => some s
    | some p => farLoop a b fuel (s.take p ++ b ++ s.drop (p + a.length)) (p + b.length)

/-- `find_and_replace_all(str, replacements)`: apply each replacement
pair's loop in order. -/
def find_and_replace_all (s : List Char) :
    List (List Char × List Char) → Option (List Char)
  | [] => some s
  | (a, b) :: rest =>
    match farLoop a b (s.length + 1) s 0 with
    | none => none
    | some s' => find_and_replace_all s' rest

/-! ### Trace Writer: binary blob records and buffer references (logger.h)

`membuf` holds a byte pointer and a 32-bit size; `operator<<(std::ofstream&,
const membuf&)` writes the 4-byte tag `"mem\0"`, the 4-byte `sz` field in
native (little-endian x86-64) byte order, then the `sz` payload bytes.
The blob stream is modelled as the list of bytes written so far; a
`Membuf` is modelled by the byte region `[ptr, ptr+sz)` it designates,
so `data.length` plays the role of `sz`. -/

structure Membuf where
  data : List Nat

/-- The four bytes of a 32-bit unsigned value in little-endian order,
as `ofs.write((const char*)&mb.sz, sizeof(mb.sz))` emits them on x86-64. -/
def u32le (n : Nat) : List Nat :=
  [n % 256, n / 256 % 256, n / 65536 % 256, n / 16777216 % 256]

/-- Reassemble a 32-bit little-endian byte quadruple. -/
def u32decode : List Nat → Nat
  | [b0, b1, b2, b3] => b0 + 256 * b1 + 65536 * b2 + 16777216 * b3
  | _ => 0

/-- Byte values of the tag `"mem\0"`: `'m'`, `'e'`, `'m'`, NUL. -/
def memTag : List Nat := [109, 101, 109, 0]

/-- The blob record one `operator<<` call emits for a membuf. -/
def membufRecord (mb : Membuf) : List Nat :=
  memTag ++ u32le mb.data.length ++ mb.data

/-- `ofs << mb` on the blob stream: append the record. -/
def writeMembuf (blob : List Nat) (mb : Membuf) : List Nat :=
  blob ++ membufRecord mb

def xrt_trace_bin_filename : String := "memdump.bin"

/-- `mb_stringify` (logger.h): take the blob stream's current write
position `fd.tellp()` (here: the byte count written so far), format the
textual reference `mem@0x<pos in hex>[filename:memdump.bin]`, then write
the membuf record to the blob stream.  Returns the reference text and
the new blob contents. -/
def mb_stringify (blob : List Nat) (mb : Membuf) : List Char × List Nat :=
  let pos := blob.length
  ("mem@0x".data ++ hexStr pos ++ ("[filename:" ++ xrt_trace_bin_filename ++ "]").data,
   writeMembuf blob mb)

/-! ### Trace Writer: `logger::timediff` (xrt_device_inst.cpp)

```
uint64_t nsec = 0, sec = 0;
if (now.tv_nsec < then.tv_nsec) {
  sec = now.tv_sec - then.tv_sec - 1;
  nsec = giga + now.tv_nsec - then.tv_nsec;
} else {
  sec = now.tv_sec - then.tv_sec;
  nsec = now.tv_nsec - then.tv_nsec;
}
oss << sec << "." << std::setfill('0') << std::setw(fw_9) << nsec;
```

Timestamps are non-negative, so `tv_sec`/`tv_nsec` are modelled as `Nat`.
The `uint64_t` subtraction of the seconds fields is modelled exactly as
arithmetic modulo 2^64 (`18446744073709551616`): adding 2^64 before the
truncated `Nat` subtraction reproduces the unsigned wrap-around for
seconds values below 2^64. -/

structure Timespec where
  tv_sec : Nat
  tv_nsec : Nat

def giga : Nat := 1000000000

def timediff (now then_ : Timespec) : List Char :=
  let sec : Nat :=
    if now.tv_nsec < then_.tv_nsec then
      (now.tv_sec + 18446744073709551616 - then_.tv_sec - 1) % 18446744073709551616
    else
      (now.tv_sec + 18446744073709551616 - then_.tv_sec) % 18446744073709551616
  let nsec : Nat :=
    if now.tv_nsec < then_.tv_nsec then giga + now.tv_nsec - then_.tv_nsec
    else now.tv_nsec - then_.tv_nsec
  decStr sec ++ '.' :: pad9c (decStr nsec)

/-- Total nanosecond reading of a timespec. -/
def totalNs (t : Timespec) : Nat := t.tv_sec * giga + t.tv_nsec

/-! ### Shim call macros (logger.h)

`XRT_TOOLS_XBT_LOG_ERROR(str)` writes
`stringify_args(str, " is NULL @ ", __FILE__, ":L", __LINE__, "\n")`
to `std::cerr`.  The three call macros test the dispatch-slot function
pointer and either call through it or emit that error line.  Each macro
model returns the list of argument tuples the real function was invoked
with, the list of stderr lines produced, and the value the call produced
(`none` when the slot was null — for `..._METD_RET`, `r` is left
unassigned in that case). -/

def xbt_log_error_msg (slot file : String) (line : Nat) : String :=
  slot ++ " is NULL @ " ++ file ++ ":L" ++ String.mk (decStr line) ++ "\n"

structure CallEffect (α ρ : Type) where
  invocations : List α
  stderrLines : List String
  result : Option ρ

/-- `XRT_TOOLS_XBT_CALL_CTOR(fptr, ...)`: free-function-style call of the
real constructor. -/
def xbt_call_ctor {α ρ : Type} (fptr : Option (α → ρ)) (slot file : String)
    (line : Nat) (args : α) : CallEffect α ρ :=
  match fptr with
  | some f => ⟨[args], [], some (f args)⟩
  | none => ⟨[], [xbt_log_error_msg slot file line], none⟩

/-- `XRT_TOOLS_XBT_CALL_METD(fptr, ...)`: member call
`(this->*fptr)(args)` with no return value. -/
def xbt_call_metd {σ α : Type} (fptr : Option (σ → α → Unit)) (this : σ)
    (slot file : String) (line : Nat) (args : α) : CallEffect (σ × α) Unit :=
  match fptr with
  | some f => ⟨[(this, args)], [], some (f this args)⟩
  | none => ⟨[], [xbt_log_error_msg slot file line], none⟩

/-- `XRT_TOOLS_XBT_CALL_METD_RET(fptr, r, ...)`: member call whose result
is assigned to `r` only when the slot is non-null. -/
def xbt_call_metd_ret {σ α ρ : Type} (fptr : Option (σ → α → ρ)) (this : σ)
    (slot file : String) (line : Nat) (args : α) : CallEffect (σ × α) ρ :=
  match fptr with
  | some f => ⟨[(this, args)], [], some (f this args)⟩
  | none => ⟨[], [xbt_log_error_msg slot file line], none⟩

/-! ### Instrumented shim bodies as event sequences

Each instrumented entry point is a straight-line sequence of macro
expansions; the order in which the dispatch-slot call and the trace
records happen is captured as a list of abstract events.  `slotOk` is
"the dispatch slot is non-null", `handleOk` is "`this` and its
correlation handle are non-null" (the guard of `XRT_TOOLS_XBT_FUNC_ENTRY`
/ `..._EXIT`).  The Linux (`#else`) ordering of the destructor is the
one modelled. -/

inductive Ev where
  | forward
  | entryTrace
  | exitTrace
  | errLog
deriving DecidableEq

def callSlotEvents (slotOk : Bool) : List Ev :=
  if slotOk then [.forward] else [.errLog]

def funcEntryEvents (handleOk : Bool) : List Ev :=
  if handleOk then [.entryTrace] else [.errLog]

def funcExitEvents (handleOk : Bool) : List Ev :=
  if handleOk then [.exitTrace] else [.errLog]

/-- `xrt::device::device(unsigned int)`: `XRT_TOOLS_XBT_CALL_CTOR`, then
`XRT_TOOLS_XBT_FUNC_ENTRY`, then `XRT_TOOLS_XBT_FUNC_EXIT`. -/
def deviceCtorEvents (slotOk handleOk : Bool) : List Ev :=
  callSlotEvents slotOk ++ funcEntryEvents handleOk ++ funcExitEvents handleOk

/-- `xrt::hw_context::hw_context(device, uuid, cfg_param)`: ctor call
first, then entry and exit traces. -/
def hwContextCtorCfgEvents (slotOk handleOk : Bool) : List Ev :=
  callSlotEvents slotOk ++ funcEntryEvents handleOk ++ funcExitEvents handleOk

/-- `xrt::device::load_xclbin(const std::string&)`:
`XRT_TOOLS_XBT_FUNC_ENTRY` first, then `XRT_TOOLS_XBT_CALL_METD_RET`,
then `XRT_TOOLS_XBT_FUNC_EXIT_RET`. -/
def loadXclbinEvents (slotOk handleOk : Bool) : List Ev :=
  funcEntryEvents handleOk ++ callSlotEvents slotOk ++ funcExitEvents handleOk

/-- `xrt::hw_context::update_qos`: entry trace first, then
`XRT_TOOLS_XBT_CALL_METD`, then exit trace. -/
def updateQosEvents (slotOk handleOk : Bool) : List Ev :=
  funcEntryEvents handleOk ++ callSlotEvents slotOk ++ funcExitEvents handleOk

/-- `xrt::device::~device()`: `handle.use_count()` is read into `count`;
only when `count < 2` does the body run (entry trace, then — on Linux —
the real dtor call, then the exit trace). -/
def deviceDtorEvents (count : Int) (slotOk handleOk : Bool) : List Ev :=
  if count < 2 then
    funcEntryEvents handleOk ++ callSlotEvents slotOk ++ funcExitEvents handleOk
  else []

/-- Index of the first occurrence of an event in a sequence (length of
the list when absent). -/
def evIdx (e : Ev) : List Ev → Nat
  | [] => 0
  | x :: xs => if x = e then 0 else evIdx e xs + 1

/-! ### Symbol Resolver (capture.cpp, `__linux__` branch)

External effects are abstracted into a `SysEnv`:
`ldPreload` is the `LD_PRELOAD` variable, `fs` maps a path to the parsed
ELF image behind it (`none` when the file cannot be opened or a stream
read fails mid-parse), `cxa` is the outcome of `abi::__cxa_demangle` per
mangled name (`none` = non-zero status), `dlopenOk` is whether
`dlopen("libxrt_coreutil.so", RTLD_LAZY)` succeeds, and `dlsym` gives the
looked-up address per mangled name (`none` = null). -/

def SHT_DYNSYM : Nat := 11
def STT_FUNC : Nat := 2
def STB_GLOBAL : Nat := 1
def STV_DEFAULT : Nat := 0
def SHN_UNDEF : Nat := 0

structure ElfSymbol where
  st_type : Nat
  st_bind : Nat
  st_vis : Nat
  st_shndx : Nat
  name : String
deriving DecidableEq

structure ElfImage where
  validMagic : Bool
  /-- Section header table, each section reduced to its `sh_type` and the
  symbols (with names already resolved through `sh_link`) it contains. -/
  sections : List (Nat × List ElfSymbol)
deriving DecidableEq

structure SysEnv where
  ldPreload : Option String
  fs : String → Option ElfImage
  cxa : String → Option String
  dlopenOk : Bool
  dlsym : String → Option Nat

/-- The symbol filter of `router::load_symbols`: global default-visibility
defined functions. -/
def isCandidateSymbol (s : ElfSymbol) : Bool :=
  s.st_type == STT_FUNC && s.st_bind == STB_GLOBAL &&
    s.st_vis == STV_DEFAULT && !(s.st_shndx == SHN_UNDEF)

/-- `find_library_path`: read `LD_PRELOAD` (empty string when unset) and
strip every space character. -/
def removeSpaces (s : String) : String :=
  String.mk (s.data.filter (fun c => !(c == ' ')))

def find_library_path (env : SysEnv) : String :=
  match env.ldPreload with
  | none => ""
  | some s => removeSpaces s

/-- The conditioning replacement list of `demangle` (capture.cpp, Linux). -/
def linux_replacements : List (List Char × List Char) :=
  [("std::__cxx11::basic_string<char, std::char_traits<char>, std::allocator<char> >".data,
    "std::string".data),
   ("[abi:cxx11]".data, "".data),
   (("std::map<std::string, unsigned int, std::less<std::string >, "
      ++ "std::allocator<std::pair<std::string const, unsigned int> > > const&").data,
    "xrt::hw_context::cfg_param_type const&".data)]

/-- `demangle` (capture.cpp, Linux): on `__cxa_demangle` success apply the
conditioning replacements; on failure return the original mangled name
(no log is produced).  The `getD` fallback is never taken: every search
string in `linux_replacements` is non-empty, so the replacement loops
terminate within their fuel. -/
def demangle (env : SysEnv) (mangled : String) : String :=
  match env.cxa mangled with
  | some dem => String.mk ((find_and_replace_all dem.data linux_replacements).getD dem.data)
  | none => mangled

/-- `std::unordered_map` insertion through `operator[]`: overwrite the
value under an existing key, else add the pair. -/
def assocInsert : List (String × String) → String → String → List (String × String)
  | [], k, v => [(k, v)]
  | (k', v') :: rest, k, v =>
    if k' = k then (k, v) :: rest else (k', v') :: assocInsert rest k v

def assocHasKey (m : List (String × String)) (k : String) : Bool :=
  m.any (fun p => p.1 == k)

/-- Per-symbol step of the `load_symbols` loop: a candidate symbol's
demangled name is mapped to its mangled name, other symbols are passed
over. -/
def symUpdate (env : SysEnv) (m : List (String × String)) (s : ElfSymbol) :
    List (String × String) :=
  if isCandidateSymbol s then assocInsert m (demangle env s.name) s.name else m

/-- `router::load_symbols`: locate the library named by `LD_PRELOAD`,
check the ELF magic, find the first `SHT_DYNSYM` section, and build
`func_mangled` (demangled name ↦ mangled name) from every candidate
symbol.  Returns 0 together with an empty map on each fatal path, 1 and
the map on success. -/
def load_symbols (env : SysEnv) : Nat × List (String × String) :=
  let path := find_library_path env
  match env.fs path with
  | none => (0, [])
  | some img =>
    if !img.validMagic then (0, [])
    else
      match img.sections.find? (fun sec => sec.1 == SHT_DYNSYM) with
      | none => (0, [])
      | some sec => (1, sec.2.foldl (symUpdate env) [])

/-! ### Dispatch Table population: `router::load_func_addr` (capture.cpp)

`fname2fptr_map` associates each build-time-known canonical signature
with the address of its slot in the `xrt_ftbl` singleton.  The loop body
is

```
void** temp = ptr_itr->second;
*temp = (dlsym(handle, it.second.c_str()));
if (nullptr == temp)
  std::cout << "Null Func address received " << std::endl;
else
  fptr2fname_map[*temp] = it.first;
```

`temp` is the address of a slot cell inside the singleton and is never
null, so the `nullptr == temp` test is identically false: the model
therefore always takes the `else` branch and produces no "Null Func
address received" line, even when `dlsym` returned null — in that case
the null value itself becomes a key of `fptr2fname_map`. -/

def known_signatures : List String :=
  ["xrt::device::device(unsigned int)",
   "xrt::device::load_xclbin(std::string const&)"]

def assocSetSlot : List (String × Option Nat) → String → Option Nat →
    List (String × Option Nat)
  | [], _, _ => []
  | (k', v') :: rest, k, v =>
    if k' = k then (k, v) :: rest else (k', v') :: assocSetSlot rest k v

def assocInsertAddr : List (Option Nat × String) → Option Nat → String →
    List (Option Nat × String)
  | [], k, v => [(k, v)]
  | (k', v') :: rest, k, v =>
    if k' = k then (k, v) :: rest else (k', v') :: assocInsertAddr rest k v

structure DispatchState where
  /-- canonical signature ↦ slot contents (`none` = null pointer). -/
  slots : List (String × Option Nat)
  /-- `fptr2fname_map`: resolved address ↦ canonical signature. -/
  fptr2fname : List (Option Nat × String)
  /-- lines printed while populating (the dead "Null Func address
  received" line would land here if its guard could ever hold). -/
  logLines : List String

/-- All slots start as null pointers. -/
def initDispatch : DispatchState :=
  ⟨known_signatures.map (fun s => (s, none)), [], []⟩

/-- `router::load_func_addr`: 0 with an error line when `dlopen` fails;
otherwise walk `func_mangled`, and for every entry whose demangled name
is a known signature store the `dlsym` result (possibly null) into the
slot and record the reverse association. -/
def load_func_addr (env : SysEnv) (func_mangled : List (String × String)) :
    Nat × DispatchState :=
  if !env.dlopenOk then
    (0, { initDispatch with logLines := ["Error loading shared library"] })
  else
    (1, func_mangled.foldl
      (fun st p =>
        if known_signatures.contains p.1 then
          let addr := env.dlsym p.2
          { st with
            slots := assocSetSlot st.slots p.1 addr,
            fptr2fname := assocInsertAddr st.fptr2fname addr p.1 }
        else st)
      initDispatch)

/-- `router::router()`: `load_symbols` then `load_func_addr`, throwing a
`std::runtime_error` when either returns 0. -/
def routerInit (env : SysEnv) : Except String Unit :=
  let r := load_symbols env
  if r.1 = 0 then Except.error "Failed to load symbols"
  else if (load_func_addr env r.2).1 = 0 then
    Except.error "Failed to load function address"
  else Except.ok ()

/-! ### Concrete environments used as explicit inputs -/

/-- A candidate dynamic symbol whose mangled name `__cxa_demangle`
rejects. -/
def brokenSym : ElfSymbol :=
  { st_type := STT_FUNC, st_bind := STB_GLOBAL, st_vis := STV_DEFAULT,
    st_shndx := 1, name := "_Zbroken" }

/-- Environment for the demangling-failure scenario: the preloaded
library parses fine and exports exactly `brokenSym`, but demangling
always fails. -/
def envDemangleFail : SysEnv :=
  { ldPreload := some "libxrt_coreutil.so"
    fs := fun p =>
      if p = "libxrt_coreutil.so" then
        some { validMagic := true, sections := [(SHT_DYNSYM, [brokenSym])] }
      else none
    cxa := fun _ => none
    dlopenOk := true
    dlsym := fun _ => none }

/-- `func_mangled` content for the null-`dlsym` scenario: the device
constructor signature resolved to its mangled name. -/
def fmNullAddr : List (String × String) :=
  [("xrt::device::device(unsigned int)", "_ZN3xrt6deviceC2Ej")]

/-- Environment in which `dlopen` succeeds but every `dlsym` lookup
returns null. -/
def envNullAddr : SysEnv :=
  { ldPreload := some "libxrt_coreutil.so"
    fs := fun _ => none
    cxa := fun _ => none
    dlopenOk := true
    dlsym := fun _ => none }

/-- Environment in which `LD_PRELOAD` is unset and no file opens. -/
def envNoLib : SysEnv :=
  { ldPreload := none
    fs := fun _ => none
    cxa := fun _ => none
    dlopenOk := false
    dlsym := fun _ => none }

/-! ## Lemmas -/

theorem decDigitsAux_length_le :
    ∀ (fuel n k : Nat), n ≤ fuel → n < 10 ^ k → (decDigitsAux fuel n).length ≤ k := by
  intro fuel
  induction fuel with
  | zero =>
    intro n k hle _
    interval_cases n
    simp [decDigitsAux]
  | succ m ih =>
    intro n k hle hlt
    match n with
    | 0 => simp [decDigitsAux]
    | n'+1 =>
      match k with
      | 0 => omega
      | k'+1 =>
        have hdiv_le : (n'+1) / 10 ≤ m := by
          have := Nat.div_lt_self (Nat.succ_pos n') (by norm_num : 1 < 10)
          omega
        have hdiv_lt : (n'+1) / 10 < 10 ^ k' := by
          have h10 : (0:Nat) < 10 := by norm_num
          rw [Nat.div_lt_iff_lt_mul h10]
          calc n'+1 < 10 ^ (k'+1) := hlt
            _ = 10 ^ k' * 10 := by ring
        have := ih ((n'+1) / 10) k' hdiv_le hdiv_lt
        simp only [decDigitsAux, List.length_append, List.length_cons,
          List.length_nil]
        omega

theorem decStr_length_le {n k : Nat} (hk : 0 < k) (h : n < 10 ^ k) :
    (decStr n).length ≤ k := by
  unfold decStr
  split
  · simpa using hk
  · exact decDigitsAux_length_le n n k le_rfl h

theorem pad9c_length {l : List Char} (h : l.length ≤ 9) :
    (pad9c l).length = 9 := by
  simp only [pad9c, List.length_append, List.length_replicate]
  omega

theorem isPrefOf_length_le : ∀ {a s : List Char}, isPrefOf a s = true → a.length ≤ s.length := by
  intro a
  induction a with
  | nil => intro s _; simp
  | cons x xs ih =>
    intro s h
    cases s with
    | nil => simp [isPrefOf] at h
    | cons y ys =>
      simp only [isPrefOf, Bool.and_eq_true] at h
      have := ih h.2
      simp only [List.length_cons]
      omega

theorem findIn_bound : ∀ {a s : List Char} {p : Nat},
    findIn a s = some p → p + a.length ≤ s.length := by
  intro a s
  induction s with
  | nil =>
    intro p h
    simp only [findIn] at h
    split at h
    · next hp =>
      have := isPrefOf_length_le hp
      simp only [Option.some.injEq] at h
      subst h
      simpa using this
    · exact absurd h (by simp)
  | cons c rest ih =>
    intro p h
    simp only [findIn] at h
    split at h
    · next hp =>
      have := isPrefOf_length_le hp
      simp only [Option.some.injEq] at h
      subst h
      simpa using this
    · simp only [Option.map_eq_some'] at h
      obtain ⟨q, hq, rfl⟩ := h
      have := ih hq
      simp only [List.length_cons]
      omega

theorem strFind_bound {a s : List Char} {pos p : Nat}
    (h : strFind a s pos = some p) : pos ≤ p ∧ p + a.length ≤ s.length := by
  unfold strFind at h
  split at h
  · next hpos =>
    simp only [Option.map_eq_some'] at h
    obtain ⟨q, hq, rfl⟩ := h
    have hb := findIn_bound hq
    rw [List.length_drop] at hb
    omega
  · exact absurd h (by simp)

theorem farLoop_isSome_of_ne_nil (a b : List Char) (ha : a ≠ []) :
    ∀ (fuel : Nat) (s : List Char) (pos : Nat),
      s.length - pos < fuel → ((farLoop a b fuel s pos).isSome = true) := by
  intro fuel
  induction fuel with
  | zero => intro s pos h; omega
  | succ m ih =>
    intro s pos h
    rw [farLoop]
    cases hf : strFind a s pos with
    | none => simp
    | some p =>
      have ⟨hp1, hp2⟩ := strFind_bound hf
      have halen : 0 < a.length := List.length_pos_of_ne_nil ha
      apply ih
      have htk : (s.take p).length = p := by
        rw [List.length_take]
        omega
      simp only [List.length_append, htk, List.length_drop]
      omega

/-- The loop over one replacement pair with non-empty search string
terminates within fuel `s.length + 1`. -/
theorem farLoop_total (a b s : List Char) (ha : a ≠ []) :
    (farLoop a b (s.length + 1) s 0).isSome = true :=
  farLoop_isSome_of_ne_nil a b ha (s.length + 1) s 0 (by omega)

theorem assocHasKey_insert_self (m : List (String × String)) (k v : String) :
    assocHasKey (assocInsert m k v) k = true := by
  induction m with
  | nil => simp [assocInsert, assocHasKey]
  | cons hd tl ih =>
    obtain ⟨k', v'⟩ := hd
    by_cases hk : k' = k
    · simp [assocInsert, hk, assocHasKey]
    · simp only [assocInsert, if_neg hk, assocHasKey, List.any_cons]
      simp only [assocHasKey] at ih
      simp [ih]

theorem assocHasKey_insert_mono {m : List (String × String)} {k' : String}
    (k v : String) (h : assocHasKey m k' = true) :
    assocHasKey (assocInsert m k v) k' = true := by
  induction m with
  | nil => simp [assocHasKey] at h
  | cons hd tl ih =>
    obtain ⟨k₀, v₀⟩ := hd
    simp only [assocHasKey, List.any_cons, Bool.or_eq_true] at h
    by_cases hk : k₀ = k
    · rcases h with h | h
      · simp only [beq_iff_eq] at h
        simp [assocInsert, hk, assocHasKey, ← h, hk]
      · simp [assocInsert, hk, assocHasKey, h]
    · rcases h with h | h
      · simp [assocInsert, if_neg hk, assocHasKey, h]
      · have := ih h
        simp only [assocHasKey] at this
        simp [assocInsert, if_neg hk, assocHasKey, this]

theorem symFold_preserves_key (env : SysEnv) (syms : List ElfSymbol) :
    ∀ (m : List (String × String)) (k : String), assocHasKey m k = true →
      assocHasKey (syms.foldl (symUpdate env) m) k = true := by
  induction syms with
  | nil => intro m k h; simpa using h
  | cons s rest ih =>
    intro m k h
    rw [List.foldl_cons]
    apply ih
    unfold symUpdate
    split
    · exact assocHasKey_insert_mono _ _ h
    · exact h

theorem symFold_adds_key (env : SysEnv) (syms : List ElfSymbol) :
    ∀ (m : List (String × String)) (s : ElfSymbol), s ∈ syms →
      isCandidateSymbol s = true →
      assocHasKey (syms.foldl (symUpdate env) m) (demangle env s.name) = true := by
  induction syms with
  | nil => intro m s hs; exact absurd hs (List.not_mem_nil s)
  | cons hd rest ih =>
    intro m s hs hc
    rw [List.foldl_cons]
    rcases List.mem_cons.mp hs with rfl | hmem
    · apply symFold_preserves_key
      unfold symUpdate
      rw [if_pos hc]
      exact assocHasKey_insert_self _ _ _
    · exact ih _ s hmem hc

/-! ## Claim theorems -/

/-- C1: For each of the three shim call macros (`XRT_TOOLS_XBT_CALL_CTOR`,
`XRT_TOOLS_XBT_CALL_METD`, `XRT_TOOLS_XBT_CALL_METD_RET`), a null
dispatch-slot pointer means the real function is never invoked through
the slot and exactly one stderr line naming the slot is emitted, while a
non-null pointer means the real function is invoked exactly once with
the given arguments (and, for the `_RET` form, its value is assigned),
with no error output. -/
theorem shim_macros_null_guard {α σ ρ : Type} (slot file : String) (line : Nat)
    (this : σ) (args : α) :
    ((xbt_call_ctor (α := α) (ρ := ρ) none slot file line args).invocations = [] ∧
      (xbt_call_ctor (α := α) (ρ := ρ) none slot file line args).stderrLines =
        [xbt_log_error_msg slot file line] ∧
      (∀ f : α → ρ,
        (xbt_call_ctor (some f) slot file line args).invocations = [args] ∧
        (xbt_call_ctor (some f) slot file line args).stderrLines = [] ∧
        (xbt_call_ctor (some f) slot file line args).result = some (f args))) ∧
    ((xbt_call_metd (σ := σ) (α := α) none this slot file line args).invocations = [] ∧
      (xbt_call_metd (σ := σ) (α := α) none this slot file line args).stderrLines =
        [xbt_log_error_msg slot file line] ∧
      (∀ f : σ → α → Unit,
        (xbt_call_metd (some f) this slot file line args).invocations = [(this, args)] ∧
        (xbt_call_metd (some f) this slot file line args).stderrLines = [])) ∧
    ((xbt_call_metd_ret (σ := σ) (α := α) (ρ := ρ) none this slot file line args).invocations
        = [] ∧
      (xbt_call_metd_ret (σ := σ) (α := α) (ρ := ρ) none this slot file line args).result
        = none ∧
      (xbt_call_metd_ret (σ := σ) (α := α) (ρ := ρ) none this slot file line args).stderrLines
        = [xbt_log_error_msg slot file line] ∧
      (∀ f : σ → α → ρ,
        (xbt_call_metd_ret (some f) this slot file line args).invocations = [(this, args)] ∧
        (xbt_call_metd_ret (some f) this slot file line args).stderrLines = [] ∧
        (xbt_call_metd_ret (some f) this slot file line args).result = some (f this args))) ∧
    (∃ rest, xbt_log_error_msg slot file line = slot ++ rest) := by
  refine ⟨⟨rfl, rfl, fun f => ⟨rfl, rfl, rfl⟩⟩,
    ⟨rfl, rfl, fun f => ⟨rfl, rfl⟩⟩,
    ⟨rfl, rfl, rfl, fun f => ⟨rfl, rfl, rfl⟩⟩,
    ⟨" is NULL @ " ++ (file ++ (":L" ++ (String.mk (decStr line) ++ "\n"))), ?_⟩⟩
  simp [xbt_log_error_msg, String.append_assoc]

/-- C2 counterexample: in `xrt::device::load_xclbin(const std::string&)`
(with the slot resolved and the handle valid) the entry trace record is
emitted *before* the call is forwarded through the dispatch slot, so the
claim that every instrumented entry point forwards first and traces
afterwards fails at this entry point. -/
theorem load_xclbin_entry_trace_precedes_forward :
    ¬ (evIdx Ev.forward (loadXclbinEvents true true) <
        evIdx Ev.entryTrace (loadXclbinEvents true true)) := by
  decide

/-- C2 (amended): constructor shims (`xrt::device::device`,
`xrt::hw_context::hw_context`) forward through the dispatch slot first
and emit the entry trace only after the real constructor has run;
non-constructor method shims (`xrt::device::load_xclbin`,
`xrt::hw_context::update_qos`) emit the entry trace record first and
forward through the slot afterwards. -/
theorem shim_forward_trace_order :
    (evIdx Ev.forward (deviceCtorEvents true true) <
      evIdx Ev.entryTrace (deviceCtorEvents true true)) ∧
    (evIdx Ev.forward (hwContextCtorCfgEvents true true) <
      evIdx Ev.entryTrace (hwContextCtorCfgEvents true true)) ∧
    (evIdx Ev.entryTrace (loadXclbinEvents true true) <
      evIdx Ev.forward (loadXclbinEvents true true)) ∧
    (evIdx Ev.entryTrace (updateQosEvents true true) <
      evIdx Ev.forward (updateQosEvents true true)) := by
  decide

/-- C3 counterexample: in `envDemangleFail` the candidate symbol
`"_Zbroken"` fails to demangle, yet `load_symbols` still succeeds and the
symbol IS added to the canonical-signature-to-mangled-name mapping (keyed
by its raw mangled name), refuting the claim that such a symbol is logged
and skipped. -/
theorem undemangleable_symbol_still_mapped :
    (load_symbols envDemangleFail).1 = 1 ∧
    (load_symbols envDemangleFail).2 = [("_Zbroken", "_Zbroken")] := by
  decide

/-- C3 (amended): when `__cxa_demangle` fails for a symbol, `demangle`
returns the raw mangled name unchanged and emits no log, and
`router::load_symbols` does not skip the symbol: it is entered into the
mapping under that raw mangled name, while resolution proceeds with the
remaining symbols (the overall load still succeeds). -/
theorem undemangled_symbol_retained (env : SysEnv) (img : ElfImage)
    (sec : Nat × List ElfSymbol) (s : ElfSymbol)
    (hfs : env.fs (find_library_path env) = some img)
    (hm : img.validMagic = true)
    (hd : img.sections.find? (fun q => q.1 == SHT_DYNSYM) = some sec)
    (hs : s ∈ sec.2) (hc : isCandidateSymbol s = true)
    (hx : env.cxa s.name = none) :
    demangle env s.name = s.name ∧
    (load_symbols env).1 = 1 ∧
    assocHasKey (load_symbols env).2 s.name = true := by
  have hdem : demangle env s.name = s.name := by
    unfold demangle
    rw [hx]
  refine ⟨hdem, ?_, ?_⟩
  · simp only [load_symbols]
    rw [hfs]
    simp [hm, hd]
  · simp only [load_symbols]
    rw [hfs]
    simp only [hm, hd, Bool.not_true, Bool.false_eq_true, if_false]
    have := symFold_adds_key env sec.2 [] s hs hc
    rwa [hdem] at this

/-- C3 witness: the general retention theorem applied to the concrete
demangling-failure environment. -/
theorem undemangled_symbol_retained_witness :
    demangle envDemangleFail "_Zbroken" = "_Zbroken" ∧
    (load_symbols envDemangleFail).1 = 1 ∧
    assocHasKey (load_symbols envDemangleFail).2 "_Zbroken" = true :=
  undemangled_symbol_retained envDemangleFail
    { validMagic := true, sections := [(SHT_DYNSYM, [brokenSym])] }
    (SHT_DYNSYM, [brokenSym]) brokenSym
    (by decide) rfl (by decide) (by decide) (by decide) rfl

/-- C4: evaluating `router::load_func_addr` at the failing input (a known
signature whose `dlsym` lookup returns null).  The dispatch slot stays
null and resolution continues (return value 1), as the claim states, but
contrary to the claim nothing is logged — the source tests
`nullptr == temp` where `temp` is the address of the slot cell, which is
never null — and the signature is not skipped: the null address itself
is entered as a key of `fptr2fname_map`. -/
theorem null_dlsym_silent_and_not_skipped :
    (load_func_addr envNullAddr fmNullAddr).1 = 1 ∧
    (load_func_addr envNullAddr fmNullAddr).2.logLines = [] ∧
    (load_func_addr envNullAddr fmNullAddr).2.slots =
      [("xrt::device::device(unsigned int)", none),
       ("xrt::device::load_xclbin(std::string const&)", none)] ∧
    (load_func_addr envNullAddr fmNullAddr).2.fptr2fname =
      [(none, "xrt::device::device(unsigned int)")] := by
  decide

/-- C5: writing a membuf holding `n` bytes to the blob stream appends
exactly one record of `4 + 4 + n` bytes — the 4-byte tag `"mem\0"`, a
4-byte native-order length field whose value decodes to `n`, and the `n`
payload bytes, byte-identical to the source buffer. -/
theorem membuf_record_format (blob : List Nat) (mb : Membuf)
    (h : mb.data.length < 4294967296) :
    writeMembuf blob mb = blob ++ (memTag ++ u32le mb.data.length ++ mb.data) ∧
    memTag.length = 4 ∧
    (u32le mb.data.length).length = 4 ∧
    (membufRecord mb).length = 4 + 4 + mb.data.length ∧
    u32decode (u32le mb.data.length) = mb.data.length := by
  refine ⟨rfl, rfl, rfl, ?_, ?_⟩
  · simp only [membufRecord, memTag, u32le, List.length_append, List.length_cons,
      List.length_nil]
  · show mb.data.length % 256 + 256 * (mb.data.length / 256 % 256) +
      65536 * (mb.data.length / 65536 % 256) +
      16777216 * (mb.data.length / 16777216 % 256) = mb.data.length
    omega

/-- C5 witness: the record format evaluated on a concrete 3-byte buffer. -/
theorem membuf_record_format_witness :
    writeMembuf [7] ⟨[1, 2, 3]⟩ =
      [7] ++ (memTag ++ u32le (Membuf.mk [1, 2, 3]).data.length ++ [1, 2, 3]) ∧
    memTag.length = 4 ∧
    (u32le (Membuf.mk [1, 2, 3]).data.length).length = 4 ∧
    (membufRecord ⟨[1, 2, 3]⟩).length = 4 + 4 + (Membuf.mk [1, 2, 3]).data.length ∧
    u32decode (u32le (Membuf.mk [1, 2, 3]).data.length) = (Membuf.mk [1, 2, 3]).data.length :=
  membuf_record_format [7] ⟨[1, 2, 3]⟩ (by decide)

/-- C6: `mb_stringify` never inlines the buffer bytes into the text
trace: it returns exactly the reference text
`mem@0x<offset in hex>[filename:memdump.bin]` whose offset is the blob
stream's write position immediately before the record is appended, and
that offset points exactly at the start of the appended blob record. -/
theorem mb_stringify_reference (blob : List Nat) (mb : Membuf) :
    (mb_stringify blob mb).1 =
      "mem@0x".data ++ hexStr blob.length ++ "[filename:memdump.bin]".data ∧
    (mb_stringify blob mb).2 = blob ++ membufRecord mb ∧
    (mb_stringify blob mb).2.drop blob.length = membufRecord mb ∧
    (mb_stringify blob mb).2.take blob.length = blob := by
  refine ⟨rfl, rfl, ?_, ?_⟩
  · show (blob ++ membufRecord mb).drop blob.length = membufRecord mb
    exact List.drop_left blob (membufRecord mb)
  · show (blob ++ membufRecord mb).take blob.length = blob
    exact List.take_left blob (membufRecord mb)

/-- C7: for timespecs with nanosecond fields in `[0, 10^9)` and `now` at
or after `then`, `logger::timediff` renders exactly the decimal seconds
of the difference, a dot, and the nanosecond remainder zero-padded to
exactly 9 digits (the borrow from the seconds field happening when
`now.tv_nsec < then.tv_nsec`).  The bound on `now.tv_sec` is the
`time_t` value range. -/
theorem timediff_format (now then_ : Timespec)
    (h1 : now.tv_nsec < giga) (h2 : then_.tv_nsec < giga)
    (h3 : totalNs then_ ≤ totalNs now)
    (h4 : now.tv_sec < 9223372036854775808) :
    timediff now then_ =
      decStr ((totalNs now - totalNs then_) / giga) ++
        '.' :: pad9c (decStr ((totalNs now - totalNs then_) % giga)) ∧
    (pad9c (decStr ((totalNs now - totalNs then_) % giga))).length = 9 := by
  constructor
  · unfold timediff totalNs at *
    simp only [giga] at *
    by_cases hn : now.tv_nsec < then_.tv_nsec
    · simp only [if_pos hn]
      have hsec : then_.tv_sec < now.tv_sec := by nlinarith
      have hA : (now.tv_sec + 18446744073709551616 - then_.tv_sec - 1) %
          18446744073709551616 =
          (now.tv_sec * 1000000000 + now.tv_nsec -
            (then_.tv_sec * 1000000000 + then_.tv_nsec)) / 1000000000 := by
        omega
      have hB : 1000000000 + now.tv_nsec - then_.tv_nsec =
          (now.tv_sec * 1000000000 + now.tv_nsec -
            (then_.tv_sec * 1000000000 + then_.tv_nsec)) % 1000000000 := by
        omega
      rw [hA, hB]
    · simp only [if_neg hn]
      push_neg at hn
      have hsec : then_.tv_sec ≤ now.tv_sec := by nlinarith
      have hA : (now.tv_sec + 18446744073709551616 - then_.tv_sec) %
          18446744073709551616 =
          (now.tv_sec * 1000000000 + now.tv_nsec -
            (then_.tv_sec * 1000000000 + then_.tv_nsec)) / 1000000000 := by
        omega
      have hB : now.tv_nsec - then_.tv_nsec =
          (now.tv_sec * 1000000000 + now.tv_nsec -
            (then_.tv_sec * 1000000000 + then_.tv_nsec)) % 1000000000 := by
        omega
      rw [hA, hB]
  · apply pad9c_length
    apply decStr_length_le (by norm_num)
    have hpos : 0 < giga := by simp [giga]
    calc (totalNs now - totalNs then_) % giga < giga := Nat.mod_lt _ hpos
      _ ≤ 10 ^ 9 := by simp [giga]

/-- C7 witness: a concrete borrow-case pair of timestamps. -/
theorem timediff_format_witness :
    timediff ⟨2, 100⟩ ⟨0, 500⟩ =
      decStr ((totalNs ⟨2, 100⟩ - totalNs ⟨0, 500⟩) / giga) ++
        '.' :: pad9c (decStr ((totalNs ⟨2, 100⟩ - totalNs ⟨0, 500⟩) % giga)) ∧
    (pad9c (decStr ((totalNs ⟨2, 100⟩ - totalNs ⟨0, 500⟩) % giga))).length = 9 :=
  timediff_format ⟨2, 100⟩ ⟨0, 500⟩ (by decide) (by decide) (by decide) (by decide)

/-- C8: the instrumented `xrt::device::~device()` emits trace records
only when the destructor call will release the last reference
(`handle.use_count() < 2`); when other references remain (count 2 or
more) neither an entry nor an exit trace record — indeed no event at all
— is produced for that call. -/
theorem device_dtor_trace_gated (count : Int) (slotOk handleOk : Bool) :
    (2 ≤ count → deviceDtorEvents count slotOk handleOk = []) ∧
    (count < 2 →
      Ev.entryTrace ∈ deviceDtorEvents count slotOk true ∧
      Ev.exitTrace ∈ deviceDtorEvents count slotOk true) := by
  constructor
  · intro h
    unfold deviceDtorEvents
    rw [if_neg (by omega)]
  · intro h
    unfold deviceDtorEvents
    rw [if_pos h]
    cases slotOk <;> simp [funcEntryEvents, callSlotEvents, funcExitEvents]

/-- C8 witness: at use count 2 nothing is emitted; at use count 1 the
entry and exit records are present. -/
theorem device_dtor_trace_gated_witness :
    deviceDtorEvents 2 true true = [] ∧
    (Ev.entryTrace ∈ deviceDtorEvents 1 true true ∧
      Ev.exitTrace ∈ deviceDtorEvents 1 true true) :=
  ⟨(device_dtor_trace_gated 2 true true).1 (by decide),
    (device_dtor_trace_gated 1 true true).2 (by decide)⟩

/-- C9: if the real library cannot be found — `LD_PRELOAD` unset (so the
empty path cannot be opened), or the named path cannot be opened, or the
image has a bad ELF magic or no dynamic-symbol-table section — then
`router::load_symbols` returns 0 and the router constructor throws
`"Failed to load symbols"`, aborting instrumentation setup. -/
theorem resolver_hard_failure (env : SysEnv)
    (h : (env.ldPreload = none ∧ env.fs "" = none)
       ∨ env.fs (find_library_path env) = none
       ∨ ∃ img, env.fs (find_library_path env) = some img ∧
           (img.validMagic = false ∨
             img.sections.find? (fun sec => sec.1 == SHT_DYNSYM) = none)) :
    (load_symbols env).1 = 0 ∧
    routerInit env = Except.error "Failed to load symbols" := by
  have h0 : (load_symbols env).1 = 0 := by
    rcases h with ⟨hp, hf⟩ | hf | ⟨img, hf, hbad⟩
    · have hpath : find_library_path env = "" := by
        unfold find_library_path
        rw [hp]
      simp only [load_symbols]
      rw [hpath, hf]
    · simp only [load_symbols]
      rw [hf]
    · simp only [load_symbols]
      rw [hf]
      rcases hbad with hm | hdyn
      · simp [hm]
      · by_cases hv : img.validMagic
        · simp [hv, hdyn]
        · simp only [Bool.not_eq_true] at hv
          simp [hv]
  refine ⟨h0, ?_⟩
  unfold routerInit
  simp [h0]

/-- C9 witness: the all-failing environment (no `LD_PRELOAD`, nothing
opens) aborts resolver construction. -/
theorem resolver_hard_failure_witness :
    (load_symbols envNoLib).1 = 0 ∧
    routerInit envNoLib = Except.error "Failed to load symbols" :=
  resolver_hard_failure envNoLib (Or.inl ⟨rfl, rfl⟩)

/-- C10: `find_and_replace_all` terminates for every input string and
every replacement list whose search strings are all non-empty: each
substitution advances the scan position past the inserted replacement
text (so replaced text is never re-examined, even when a replacement
value contains its own search pattern), making fuel `length + 1`
sufficient for every pass. -/
theorem find_and_replace_all_terminates :
    ∀ (reps : List (List Char × List Char)) (s : List Char),
      (∀ p ∈ reps, p.1 ≠ []) → (find_and_replace_all s reps).isSome = true := by
  intro reps
  induction reps with
  | nil => intro s _; simp [find_and_replace_all]
  | cons hd tl ih =>
    intro s hne
    obtain ⟨a, b⟩ := hd
    have ha : a ≠ [] := hne (a, b) (List.mem_cons_self _ _)
    rw [find_and_replace_all]
    cases hl : farLoop a b (s.length + 1) s 0 with
    | none =>
      have := farLoop_total a b s ha
      rw [hl] at this
      simp at this
    | some s' =>
      exact ih s' (fun p hp => hne p (List.mem_cons_of_mem _ hp))

/-- C10 witness: the Windows normalization pairs `"const " → "const"` and
`"," → ", "` (whose replacement contains its own search pattern) applied
to a concrete signature. -/
theorem find_and_replace_all_terminates_witness :
    (∀ p ∈ [("const ".data, "const".data), (",".data, ", ".data)],
      p.1 ≠ ([] : List Char)) ∧
    (find_and_replace_all "f(const int a,long b)".data
      [("const ".data, "const".data), (",".data, ", ".data)]).isSome = true :=
  ⟨by decide,
    find_and_replace_all_terminates
      [("const ".data, "const".data), (",".data, ", ".data)]
      "f(const int a,long b)".data (by decide)⟩

end XbTracer
